import Mathlib

/-!
Verification development for the healthcare event streaming pipeline.

This file gives a shallow embedding of the event ingestion pipeline of the
repository: the event processor (src/services/event_processor.py together
with the pydantic models in src/models/event.py and the encryption wrapper
in src/services/encryption.py), the Kinesis producer
(src/services/kinesis_producer.py) and the Kinesis consumer
(src/services/kinesis_consumer.py).  External collaborators (the Kinesis
transport, the Fernet cipher, the clock) are passed in as explicit
parameters or oracles; everything the repository itself computes is
translated directly from the Python source.

Machine integers do not occur; Python integers are unbounded, and the
SHA-256 model works on Nat with explicit reduction modulo two to the 32.
-/

/-! Part 1: SHA-256 (models hashlib.sha256(...).hexdigest()). -/

/-- Modulus for 32 bit words, two to the 32. -/
def w32 : Nat := 4294967296

/-- Exclusive or of two 32 bit words. -/
def xor32 (a b : Nat) : Nat := (a ^^^ b) % w32

/-- Bitwise and of two 32 bit words. -/
def and32 (a b : Nat) : Nat := (a &&& b) % w32

/-- Right rotation of a 32 bit word by n bits. -/
def rotr32 (n x : Nat) : Nat := (x % 2 ^ n) * 2 ^ (32 - n) + x / 2 ^ n

/-- Choice function of the SHA-256 compression loop. -/
def shaCh (x y z : Nat) : Nat := xor32 (and32 x y) (and32 (4294967295 - x % w32) z)

/-- Majority function of the SHA-256 compression loop. -/
def shaMaj (x y z : Nat) : Nat := xor32 (and32 x y) (xor32 (and32 x z) (and32 y z))

def sumA0 (x : Nat) : Nat := xor32 (rotr32 2 x) (xor32 (rotr32 13 x) (rotr32 22 x))

def sumA1 (x : Nat) : Nat := xor32 (rotr32 6 x) (xor32 (rotr32 11 x) (rotr32 25 x))

def sumB0 (x : Nat) : Nat := xor32 (rotr32 7 x) (xor32 (rotr32 18 x) (x / 2 ^ 3))

def sumB1 (x : Nat) : Nat := xor32 (rotr32 17 x) (xor32 (rotr32 19 x) (x / 2 ^ 10))

/-- Round constants of SHA-256. -/
def sha256K : List Nat :=
  [1116352408, 1899447441, 3049323471, 3921009573, 961987163,
   1508970993, 2453635748, 2870763221, 3624381080, 310598401,
   607225278, 1426881987, 1925078388, 2162078206, 2614888103,
   3248222580, 3835390401, 4022224774, 264347078, 604807628,
   770255983, 1249150122, 1555081692, 1996064986, 2554220882,
   2821834349, 2952996808, 3210313671, 3336571891, 3584528711,
   113926993, 338241895, 666307205, 773529912, 1294757372,
   1396182291, 1695183700, 1986661051, 2177026350, 2456956037,
   2730485921, 2820302411, 3259730800, 3345764771, 3516065817,
   3600352804, 4094571909, 275423344, 430227734, 506948616,
   659060556, 883997877, 958139571, 1322822218, 1537002063,
   1747873779, 1955562222, 2024104815, 2227730452, 2361852424,
   2428436474, 2756734187, 3204031479, 3329325298]

/-- Initial hash value of SHA-256. -/
def sha256InitHash : List Nat :=
  [1779033703, 3144134277, 1013904242, 2773480762,
   1359893119, 2600822924, 528734635, 1541459225]

/-- Big endian byte expansion of a number into k bytes. -/
def beBytes : Nat → Nat → List Nat
  | 0, _ => []
  | k+1, n => beBytes k (n / 256) ++ [n % 256]

/-- SHA-256 padding: append the byte 128, zero bytes up to 56 mod 64, and
the 8 byte big endian bit length of the message. -/
def padMessage (msg : List Nat) : List Nat :=
  msg ++ [128] ++ List.replicate ((119 - msg.length % 64) % 64) 0 ++ beBytes 8 (msg.length * 8)

/-- Group a byte list into big endian 32 bit words. -/
def toWords : List Nat → List Nat
  | b0 :: b1 :: b2 :: b3 :: rest => (((b0 * 256 + b1) * 256 + b2) * 256 + b3) :: toWords rest
  | _ => []

/-- Extend a reversed 16 word block to the full 64 word message schedule.
The accumulator holds the schedule in reverse order. -/
def extendSchedule : Nat → List Nat → List Nat
  | 0, rws => rws.reverse
  | k+1, rws =>
    extendSchedule k
      (((sumB1 (rws.getD 1 0) + rws.getD 6 0 + sumB0 (rws.getD 14 0) + rws.getD 15 0) % w32) :: rws)

/-- One round of the SHA-256 compression function on the 8 word state. -/
def compressRound (st : Nat × Nat × Nat × Nat × Nat × Nat × Nat × Nat) (kw : Nat × Nat) :
    Nat × Nat × Nat × Nat × Nat × Nat × Nat × Nat :=
  match st, kw with
  | (a, b, c, d, e, f, g, h), (ki, wi) =>
    let t1 := (h + sumA1 e + shaCh e f g + ki + wi) % w32
    let t2 := (sumA0 a + shaMaj a b c) % w32
    ((t1 + t2) % w32, a, b, c, (d + t1) % w32, e, f, g)

/-- Compress one 16 word block into the running hash. -/
def compressBlock (hs : List Nat) (ws16 : List Nat) : List Nat :=
  let sched := extendSchedule 48 ws16.reverse
  match (List.zip sha256K sched).foldl compressRound
      (hs.getD 0 0, hs.getD 1 0, hs.getD 2 0, hs.getD 3 0,
       hs.getD 4 0, hs.getD 5 0, hs.getD 6 0, hs.getD 7 0) with
  | (a, b, c, d, e, f, g, h) =>
    [(hs.getD 0 0 + a) % w32, (hs.getD 1 0 + b) % w32, (hs.getD 2 0 + c) % w32,
     (hs.getD 3 0 + d) % w32, (hs.getD 4 0 + e) % w32, (hs.getD 5 0 + f) % w32,
     (hs.getD 6 0 + g) % w32, (hs.getD 7 0 + h) % w32]

/-- Fold the compression function over all 16 word blocks. -/
def sha256Blocks : List Nat → List Nat → List Nat
  | hs, w0 :: w1 :: w2 :: w3 :: w4 :: w5 :: w6 :: w7 ::
        w8 :: w9 :: w10 :: w11 :: w12 :: w13 :: w14 :: w15 :: rest =>
    sha256Blocks
      (compressBlock hs [w0, w1, w2, w3, w4, w5, w6, w7, w8, w9, w10, w11, w12, w13, w14, w15]) rest
  | hs, _ => hs

/-- SHA-256 digest of a byte list, as eight 32 bit words. -/
def sha256Words (msg : List Nat) : List Nat := sha256Blocks sha256InitHash (toWords (padMessage msg))

/-- Lowercase hexadecimal digit. -/
def hexDigit (n : Nat) : Char := if n < 10 then Char.ofNat (48 + n) else Char.ofNat (87 + n)

/-- Lowercase hexadecimal rendering of one 32 bit word. -/
def wordHex (w : Nat) : List Char :=
  [hexDigit (w / 16 ^ 7 % 16), hexDigit (w / 16 ^ 6 % 16), hexDigit (w / 16 ^ 5 % 16),
   hexDigit (w / 16 ^ 4 % 16), hexDigit (w / 16 ^ 3 % 16), hexDigit (w / 16 ^ 2 % 16),
   hexDigit (w / 16 % 16), hexDigit (w % 16)]

/-- Hex digest of SHA-256, as produced by hashlib hexdigest. -/
def sha256hex (msg : List Nat) : String := String.mk ((sha256Words msg).map wordHex).flatten

/-- Byte view of a character list.  The JSON the pipeline hashes is ASCII
for the events considered here, so the UTF-8 encoding used by Python
encode agrees with the code point of each character. -/
def charBytes (cs : List Char) : List Nat := cs.map Char.toNat

/-! Part 2: compact JSON serialization, modelling pydantic model_dump_json.
Pydantic version 2 serializes the declared fields in declaration order,
with separators comma and colon and no spaces, and serializes a dict field
in its insertion order.  Strings are emitted with the usual JSON escapes;
the model covers the escapes for quote, backslash, newline, tab and
carriage return and leaves other characters unescaped, which is exact for
the printable ASCII range. -/

def quoteChar : Char := Char.ofNat 34

def backslashChar : Char := Char.ofNat 92

def lbraceChar : Char := Char.ofNat 123

def rbraceChar : Char := Char.ofNat 125

def commaChar : Char := Char.ofNat 44

def colonChar : Char := Char.ofNat 58

/-- JSON escape of one character. -/
def escChar (c : Char) : List Char :=
  if c = quoteChar then [backslashChar, quoteChar]
  else if c = backslashChar then [backslashChar, backslashChar]
  else if c = Char.ofNat 10 then [backslashChar, Char.ofNat 110]
  else if c = Char.ofNat 9 then [backslashChar, Char.ofNat 116]
  else if c = Char.ofNat 13 then [backslashChar, Char.ofNat 114]
  else [c]

/-- JSON escape of a character list. -/
def escape : List Char → List Char
  | [] => []
  | c :: cs => escChar c ++ escape cs

/-- Decoder for one escaped character, used to show that escaping is
injective. -/
def unescChar (d : Char) : Char :=
  if d = Char.ofNat 110 then Char.ofNat 10
  else if d = Char.ofNat 116 then Char.ofNat 9
  else if d = Char.ofNat 114 then Char.ofNat 13
  else d

/-- Decoder for an escaped character list, a left inverse of escape. -/
def unescape : List Char → List Char
  | [] => []
  | [c] => if c = backslashChar then [] else [c]
  | c :: d :: rest =>
    if c = backslashChar then unescChar d :: unescape rest
    else c :: unescape (d :: rest)

/-- JSON rendering of a string: quoted and escaped. -/
def serString (s : String) : List Char := quoteChar :: (escape s.data ++ [quoteChar])

/-- JSON rendering of an optional string: null when absent. -/
def serOptString : Option String → List Char
  | none => "null".data
  | some s => serString s

/-- Decimal rendering of a natural number. -/
def decRepr (n : Nat) : List Char :=
  if n = 0 then [Char.ofNat 48] else ((Nat.digits 10 n).map Nat.digitChar).reverse

/-- JSON values that can appear in the free form payload dict.  The
payload field of a HealthcareEvent has type Dict string to Any; the model
covers string values, non negative integer values and null. -/
inductive JsonVal where
  | str (s : String)
  | num (n : Nat)
  | null
deriving DecidableEq, Repr

/-- Python str() of a payload value, as applied by the processor before
encrypting a sensitive payload field. -/
def JsonVal.pyStr : JsonVal → String
  | .str s => s
  | .num n => String.mk (decRepr n)
  | .null => "None"

/-- JSON rendering of a payload value. -/
def serJsonVal : JsonVal → List Char
  | .str s => serString s
  | .num n => decRepr n
  | .null => "null".data

/-- JSON rendering of one key value entry of a dict. -/
def serEntry (kv : String × JsonVal) : List Char :=
  serString kv.1 ++ colonChar :: serJsonVal kv.2

/-- Comma separated rendering of the entries of a dict, in insertion
order, as Python json serialization of a dict does. -/
def joinEntries : List (String × JsonVal) → List Char
  | [] => []
  | [kv] => serEntry kv
  | kv :: rest => serEntry kv ++ commaChar :: joinEntries rest

/-- JSON rendering of the payload dict. -/
def serPayload (p : List (String × JsonVal)) : List Char :=
  lbraceChar :: (joinEntries p ++ [rbraceChar])

/-! Part 3: the data model, from src/models/event.py. -/

/-- Closed enumeration of event types (class EventType). -/
inductive EventType where
  | patient_visit | lab_result | prescription | vitals
  | diagnosis | procedure | discharge | admission
deriving DecidableEq, Repr

/-- String value of an event type, as in the Python str enum. -/
def EventType.value : EventType → String
  | .patient_visit => "patient_visit"
  | .lab_result => "lab_result"
  | .prescription => "prescription"
  | .vitals => "vitals"
  | .diagnosis => "diagnosis"
  | .procedure => "procedure"
  | .discharge => "discharge"
  | .admission => "admission"

/-- Closed enumeration of source systems (class EventSource). -/
inductive EventSource where
  | ehr_epic | ehr_cerner | lab_system | iot_device | manual_entry
deriving DecidableEq, Repr

/-- String value of a source system. -/
def EventSource.value : EventSource → String
  | .ehr_epic => "ehr_epic"
  | .ehr_cerner => "ehr_cerner"
  | .lab_system => "lab_system"
  | .iot_device => "iot_device"
  | .manual_entry => "manual_entry"

/-- Event source metadata (class EventMetadata).  The retry count is an
integer with default 0; the events of interest carry non negative counts,
modelled as Nat. -/
structure EventMetadata where
  source : EventSource
  version : String
  correlation_id : Option String
  retry_count : Nat
deriving DecidableEq, Repr

/-- Raw healthcare event (class HealthcareEvent).  Timestamps are carried
as their ISO rendering, which is all the pipeline ever does with them.
The payload dict is an association list in insertion order with the
semantics of a Python dict. -/
structure HealthcareEvent where
  event_id : Option String
  event_type : EventType
  timestamp : String
  provider_id : String
  patient_id : String
  facility_id : Option String
  department : Option String
  payload : List (String × JsonVal)
  metadata : EventMetadata
deriving DecidableEq, Repr

/-- Processed event (class ProcessedEvent extends HealthcareEvent). -/
structure ProcessedEvent extends HealthcareEvent where
  processed_at : String
  encryption_key_id : Option String
  checksum : Option String
  partition_key : Option String
deriving DecidableEq, Repr

/-- Python str.strip limited to the ASCII whitespace characters that can
occur in identifier fields (space, tab, newline, carriage return). -/
def stripChar (c : Char) : Bool :=
  c = Char.ofNat 32 || c = Char.ofNat 9 || c = Char.ofNat 10 || c = Char.ofNat 13

/-- Python str.strip: drop leading and trailing whitespace. -/
def pyStrip (s : String) : String :=
  String.mk (((s.data.dropWhile stripChar).reverse.dropWhile stripChar).reverse)

/-- Field validation performed by pydantic when a HealthcareEvent is
constructed: provider_id has min_length 1 and max_length 50 plus a
validator rejecting values that are empty after stripping; patient_id has
min_length 1 and max_length 100 plus the same validator. -/
def HealthcareEvent.validate (e : HealthcareEvent) : Except String HealthcareEvent :=
  if e.provider_id.length < 1 then .error "provider_id: min_length"
  else if 50 < e.provider_id.length then .error "provider_id: max_length"
  else if pyStrip e.provider_id = "" then .error "provider_id cannot be empty"
  else if e.patient_id.length < 1 then .error "patient_id: min_length"
  else if 100 < e.patient_id.length then .error "patient_id: max_length"
  else if pyStrip e.patient_id = "" then .error "patient_id cannot be empty"
  else .ok e

/-- Whether pydantic validation of the event succeeds. -/
def HealthcareEvent.validates (e : HealthcareEvent) : Bool :=
  match e.validate with
  | .ok _ => true
  | .error _ => false

/-! Part 4: dict primitives.  A Python dict is modelled as an association
list in insertion order; assignment replaces the value at the first
occurrence of the key and otherwise appends. -/

/-- Dict lookup, first occurrence. -/
def dictGet {α : Type} : List (String × α) → String → Option α
  | [], _ => none
  | (k0, v0) :: rest, k => if k0 = k then some v0 else dictGet rest k

/-- Dict assignment: replace at the first occurrence, else append. -/
def dictSet {α : Type} : List (String × α) → String → α → List (String × α)
  | [], k, v => [(k, v)]
  | (k0, v0) :: rest, k, v => if k0 = k then (k, v) :: rest else (k0, v0) :: dictSet rest k v

/-! Part 5: the event processor, from src/services/event_processor.py and
src/services/encryption.py. -/

/-- The encryption collaborator (class EncryptionService).  The Fernet
cipher together with its base64 wrapping is an injected function; the key
identifier mirrors current_key_id. -/
structure EncryptionService where
  cipher : String → String
  currentKeyId : String

/-- encrypt_phi: pass through on empty input, otherwise apply the
cipher. -/
def EncryptionService.encryptPhi (svc : EncryptionService) (data : String) : String :=
  if data = "" then data else svc.cipher data

/-- Processor state: the encryption service and the clock value used for
processed_at. -/
structure EventProcessor where
  encryptionService : EncryptionService
  utcNow : String

/-- Sensitive payload keys redacted by the processor (the allow list in
_encrypt_payload). -/
def sensitiveFields : List String :=
  ["ssn", "mrn", "dob", "address", "phone", "email", "insurance_id", "diagnosis_code"]

/-- Result of the payload redaction loop: the original dict threaded
through the loop (the loop never assigns into it), the copied dict that
receives the encrypted values, and the plaintexts passed to encrypt_phi in
call order. -/
structure EncPayloadResult where
  orig : List (String × JsonVal)
  copied : List (String × JsonVal)
  calls : List String
deriving Repr

/-- The loop of _encrypt_payload: for each sensitive field present in the
copied dict, overwrite it in the copied dict with the encryption of the
str rendering of its value.  Both dicts are threaded explicitly so that
the absence of writes to the original is visible in the model. -/
def encryptPayloadLoop (svc : EncryptionService) :
    List String → List (String × JsonVal) → List (String × JsonVal) → List String →
    EncPayloadResult
  | [], orig, copied, calls => ⟨orig, copied, calls⟩
  | f :: fs, orig, copied, calls =>
    match dictGet copied f with
    | some v =>
      encryptPayloadLoop svc fs orig
        (dictSet copied f (.str (svc.encryptPhi v.pyStr))) (calls ++ [v.pyStr])
    | none => encryptPayloadLoop svc fs orig copied calls

/-- _encrypt_payload: copy the payload and encrypt the sensitive fields in
the copy. -/
def encryptPayload (svc : EncryptionService) (payload : List (String × JsonVal)) :
    EncPayloadResult :=
  encryptPayloadLoop svc sensitiveFields payload payload []

/-- Canonical serialization hashed by _generate_checksum: the pydantic
model_dump_json of the raw event, fields in declaration order.  The head
covers every field before payload. -/
def mdjHead (e : HealthcareEvent) : List Char :=
  lbraceChar ::
    (serString "event_id" ++ colonChar :: serOptString e.event_id ++
     commaChar :: serString "event_type" ++ colonChar :: serString e.event_type.value ++
     commaChar :: serString "timestamp" ++ colonChar :: serString e.timestamp ++
     commaChar :: serString "provider_id" ++ colonChar :: serString e.provider_id ++
     commaChar :: serString "patient_id" ++ colonChar :: serString e.patient_id ++
     commaChar :: serString "facility_id" ++ colonChar :: serOptString e.facility_id ++
     commaChar :: serString "department" ++ colonChar :: serOptString e.department ++
     commaChar :: serString "payload" ++ [colonChar])

/-- Serialization of the metadata model. -/
def serMetadata (m : EventMetadata) : List Char :=
  lbraceChar ::
    (serString "source" ++ colonChar :: serString m.source.value ++
     commaChar :: serString "version" ++ colonChar :: serString m.version ++
     commaChar :: serString "correlation_id" ++ colonChar :: serOptString m.correlation_id ++
     commaChar :: serString "retry_count" ++ colonChar :: decRepr m.retry_count) ++ [rbraceChar]

/-- Tail of the raw event serialization: the metadata field and the
closing brace. -/
def mdjTail (m : EventMetadata) : List Char :=
  commaChar :: serString "metadata" ++ colonChar :: serMetadata m ++ [rbraceChar]

/-- model_dump_json of a raw HealthcareEvent. -/
def modelDumpJson (e : HealthcareEvent) : List Char :=
  mdjHead e ++ serPayload e.payload ++ mdjTail e.metadata

/-- model_dump_json of a ProcessedEvent: the inherited fields in
declaration order followed by the four added fields. -/
def dumpProcessedEvent (pe : ProcessedEvent) : List Char :=
  mdjHead pe.toHealthcareEvent ++ serPayload pe.payload ++
    (commaChar :: serString "metadata" ++ colonChar :: serMetadata pe.metadata ++
     commaChar :: serString "processed_at" ++ colonChar :: serString pe.processed_at ++
     commaChar :: serString "encryption_key_id" ++ colonChar :: serOptString pe.encryption_key_id ++
     commaChar :: serString "checksum" ++ colonChar :: serOptString pe.checksum ++
     commaChar :: serString "partition_key" ++ colonChar :: serOptString pe.partition_key ++
     [rbraceChar])

/-- _generate_checksum: SHA-256 hex digest of the model_dump_json of the
event passed to it. -/
def generateChecksum (e : HealthcareEvent) : String :=
  sha256hex (charBytes (modelDumpJson e))

/-- _generate_partition_key: provider_id, a colon, and the event type
value. -/
def generatePartitionKey (e : HealthcareEvent) : String :=
  e.provider_id ++ ":" ++ e.event_type.value

/-- Result of one process call: the produced record, the plaintext
arguments handed to encrypt_phi in call order, and the state of the input
event object after the call (process never writes to it; the payload
component is the original dict threaded through the redaction loop). -/
structure ProcessResult where
  record : ProcessedEvent
  encCalls : List String
  inputAfter : HealthcareEvent
deriving Repr

/-- EventProcessor.process: encrypt the patient identifier, redact the
payload copy, compute checksum and partition key from the original event,
and assemble the ProcessedEvent.  The status write to the cache is fire
and forget and carries no data the record depends on. -/
def EventProcessor.process (proc : EventProcessor) (event : HealthcareEvent) : ProcessResult :=
  let encryptedPatientId := proc.encryptionService.encryptPhi event.patient_id
  let enc := encryptPayload proc.encryptionService event.payload
  let checksum := generateChecksum event
  let partitionKey := generatePartitionKey event
  { record :=
      { event_id := event.event_id
        event_type := event.event_type
        timestamp := event.timestamp
        provider_id := event.provider_id
        patient_id := encryptedPatientId
        facility_id := event.facility_id
        department := event.department
        payload := enc.copied
        metadata := event.metadata
        processed_at := proc.utcNow
        encryption_key_id := some proc.encryptionService.currentKeyId
        checksum := some checksum
        partition_key := some partitionKey }
    encCalls := event.patient_id :: enc.calls
    inputAfter := { event with payload := enc.orig } }

/-- Result of one ingestion call at the API boundary. -/
structure IngestResult where
  outcome : Except String ProcessedEvent
  encCalls : List String

/-- Ingestion of a raw event: pydantic validation happens when the
HealthcareEvent is constructed, before process and therefore before any
encryption work. -/
def ingest (proc : EventProcessor) (e : HealthcareEvent) : IngestResult :=
  match e.validate with
  | .error m => ⟨.error m, []⟩
  | .ok v =>
    let r := EventProcessor.process proc v
    ⟨.ok r.record, r.encCalls⟩

/-! Part 6: the Kinesis producer, from src/services/kinesis_producer.py.
The transport is an oracle giving the outcome of each put_record attempt;
the calls the producer makes are collected in a trace. -/

/-- Outcome of one put_record call against the transport. -/
inductive PutResult where
  | ok (shardId : String) (sequenceNumber : String)
  | clientError (code : String)
deriving DecidableEq, Repr

/-- Error code that send_event treats as retryable. -/
def throttleCode : String := "ProvisionedThroughputExceededException"

/-- Observable actions of the producer. -/
inductive PAction where
  | putRecord (stream : String) (data : List Char) (partitionKey : String)
  | putRecordsCall (stream : String) (entries : List (List Char × String))
  | sleepFor (seconds : ℚ)
deriving DecidableEq, Repr

/-- Producer state as set up in the constructor: the two stream names from
settings, max_retries 3 and base_delay 0.1 seconds. -/
structure KinesisProducer where
  streamName : String
  dlqStreamName : String
  maxRetries : Nat
  baseDelay : ℚ
deriving Repr

/-- Constructor of the producer. -/
def KinesisProducer.create (stream dlq : String) : KinesisProducer :=
  ⟨stream, dlq, 3, 1/10⟩

/-- Data bytes put on the wire for an event: model_dump_json encoded. -/
def putData (e : ProcessedEvent) : List Char := dumpProcessedEvent e

/-- Partition key handed to the transport.  The field is set by the
processor on every record that reaches the producer; the transport
requires a string value. -/
def partitionKeyOf (e : ProcessedEvent) : String := e.partition_key.getD ""

/-- The retry loop of send_event: fuel counts the remaining range
iterations, attempt is the current loop index.  A throttling client error
sleeps base_delay times 2 to the attempt and retries; any other client
error breaks out of the loop. -/
def sendAttempts (p : KinesisProducer) (data : List Char) (pk : String)
    (oracle : Nat → PutResult) : Nat → Nat → List PAction × Bool
  | _, 0 => ([], false)
  | attempt, fuel + 1 =>
    match oracle attempt with
    | .ok _ _ => ([.putRecord p.streamName data pk], true)
    | .clientError code =>
      if code = throttleCode then
        let rest := sendAttempts p data pk oracle (attempt + 1) fuel
        (.putRecord p.streamName data pk :: .sleepFor (p.baseDelay * 2 ^ attempt) :: rest.1,
         rest.2)
      else ([.putRecord p.streamName data pk], false)

/-- _send_to_dlq: one put_record on the dead letter stream with the same
data and partition key; a failure of this call is logged and not
retried. -/
def sendToDlq (p : KinesisProducer) (e : ProcessedEvent) : List PAction :=
  [.putRecord p.dlqStreamName (putData e) (partitionKeyOf e)]

/-- send_event: the retry loop followed, on failure, by the dead letter
write.  Returns the action trace and the boolean result. -/
def KinesisProducer.sendEvent (p : KinesisProducer) (e : ProcessedEvent)
    (oracle : Nat → PutResult) : List PAction × Bool :=
  let r := sendAttempts p (putData e) (partitionKeyOf e) oracle 0 p.maxRetries
  if r.2 then r else (r.1 ++ sendToDlq p e, false)

/-- Summary dict returned by send_batch. -/
structure BatchSummary where
  total : Nat
  success : Nat
  failed : Nat
deriving DecidableEq, Repr

/-- Outcome of the put_records batch call: either a response carrying the
FailedRecordCount and the per record results (some code when the record
result carries an ErrorCode), or a client error failing the whole call. -/
inductive BatchCallResult where
  | ok (failedRecordCount : Nat) (records : List (Option String))
  | clientError (code : String)
deriving Repr

/-- _handle_failed_records: walk the zip of events and per record results
and dead letter every record whose result carries an ErrorCode. -/
def handleFailedRecords (p : KinesisProducer) (events : List ProcessedEvent)
    (results : List (Option String)) : List PAction :=
  (events.zip results).filterMap fun er =>
    match er.2 with
    | some _ => some (.putRecord p.dlqStreamName (putData er.1) (partitionKeyOf er.1))
    | none => none

/-- send_batch: one batch call; on a response, dead letter the individually
failed records when the failed count is positive; on a client error, dead
letter everything.  No retry happens at the batch level. -/
def KinesisProducer.sendBatch (p : KinesisProducer) (events : List ProcessedEvent)
    (result : BatchCallResult) : List PAction × BatchSummary :=
  let call : PAction := .putRecordsCall p.streamName (events.map fun e => (putData e, partitionKeyOf e))
  match result with
  | .ok failedCount results =>
    let dlqs := if 0 < failedCount then handleFailedRecords p events results else []
    (call :: dlqs, ⟨events.length, events.length - failedCount, failedCount⟩)
  | .clientError _ =>
    (call :: (events.map fun e => .putRecord p.dlqStreamName (putData e) (partitionKeyOf e)),
     ⟨events.length, 0, events.length⟩)

/-- Actions in a trace that write to the dead letter stream of the
producer. -/
def dlqWrites (p : KinesisProducer) (tr : List PAction) : List PAction :=
  tr.filter fun a =>
    match a with
    | .putRecord s _ _ => s == p.dlqStreamName
    | _ => false

/-! Part 7: the Kinesis consumer, from src/services/kinesis_consumer.py.
The checkpoint table is the per instance dict mapping shard id to the last
checkpointed sequence number. -/

/-- One record pulled from a shard. -/
structure KRecord where
  data : List Char
  seq : String
deriving DecidableEq, Repr

/-- Outcome of decoding one record and invoking the downstream processor
on it (the body of the try block of _process_records). -/
inductive HandlerOutcome where
  | ok
  | err (msg : String)
deriving DecidableEq, Repr

/-- Whether a handler outcome is a success. -/
def HandlerOutcome.isOk : HandlerOutcome → Bool
  | .ok => true
  | .err _ => false

/-- Result of _process_records on one batch: the checkpoint table after
the batch, the sequence numbers whose processing raised (logged errors),
the sequence numbers of all records the loop body ran for, and the
checkpoint values written, in order. -/
structure ProcessRecordsResult where
  table : List (String × String)
  errors : List String
  handled : List String
  writes : List String
deriving DecidableEq, Repr

/-- _process_records: for each record in order, run the handler; on
success assign the checkpoint for the shard to the sequence number of the
record; on an exception log it and continue with the next record. -/
def KinesisConsumer.processRecords (handler : KRecord → HandlerOutcome) (shard : String) :
    List KRecord → List (String × String) → ProcessRecordsResult
  | [], table => ⟨table, [], [], []⟩
  | r :: rest, table =>
    match handler r with
    | .ok =>
      let res := KinesisConsumer.processRecords handler shard rest (dictSet table shard r.seq)
      ⟨res.table, res.errors, r.seq :: res.handled, r.seq :: res.writes⟩
    | .err _ =>
      let res := KinesisConsumer.processRecords handler shard rest table
      ⟨res.table, r.seq :: res.errors, r.seq :: res.handled, res.writes⟩

/-- Iterator request issued to the transport: resume after a sequence
number, or start at the newest record. -/
inductive IterMode where
  | afterSequenceNumber (startAfter : String)
  | latest
deriving DecidableEq, Repr

/-- _get_shard_iterator: look up the checkpoint for the shard; a present
and truthy (non empty) value requests AFTER_SEQUENCE_NUMBER at that value,
a missing or empty value requests LATEST. -/
def KinesisConsumer.getShardIteratorMode (table : List (String × String)) (shard : String) :
    IterMode :=
  match dictGet table shard with
  | some cp => if cp = "" then .latest else .afterSequenceNumber cp
  | none => .latest

/-- Outcome of one get_records call in the shard loop. -/
inductive ConsumeEvent where
  | gotRecords (records : List KRecord) (next : Option String)
  | expiredIterator
  | otherError (code : String)
deriving Repr

/-- Result of one iteration of the shard loop. -/
structure StepResult where
  table : List (String × String)
  nextIterator : Option String
  sleptSeconds : ℚ
deriving Repr

/-- One iteration of the while loop of _consume_shard.  On records,
process them and take the next iterator from the response, sleeping one
second when the batch was empty; on an expired iterator error, reacquire
the iterator from the checkpoint table; on any other client error, keep
the iterator and sleep five seconds. -/
def KinesisConsumer.consumeShardStep (handler : KRecord → HandlerOutcome)
    (getIter : IterMode → String) (table : List (String × String)) (shard : String)
    (iterator : String) : ConsumeEvent → StepResult
  | .gotRecords records next =>
    let t := if records.isEmpty then table
             else (KinesisConsumer.processRecords handler shard records table).table
    ⟨t, next, if records.isEmpty then 1 else 0⟩
  | .expiredIterator =>
    ⟨table, some (getIter (KinesisConsumer.getShardIteratorMode table shard)), 0⟩
  | .otherError _ => ⟨table, some iterator, 5⟩

/-- Event equal to e except that one payload key is assigned a new
value. -/
def setPayloadField (e : HealthcareEvent) (k : String) (v : JsonVal) : HealthcareEvent :=
  { e with payload := dictSet e.payload k v }

/-- Lexicographic strict order on character lists, used as the total order
on sequence markers, which are otherwise uninterpreted strings, within a shard. -/
def lexLt : List Char → List Char → Bool
  | [], [] => false
  | [], _ :: _ => true
  | _ :: _, [] => false
  | a :: as, b :: bs => if a < b then true else if b < a then false else lexLt as bs

/-- Order on sequence markers: equal or lexicographically below. -/
def seqLe (a b : String) : Prop := a = b ∨ lexLt a.data b.data = true

/-- Strictly below, for stating that a checkpoint moved backward. -/
def seqLt (a b : String) : Prop := lexLt a.data b.data = true

instance (a b : String) : Decidable (seqLe a b) := by unfold seqLe; infer_instance

instance (a b : String) : Decidable (seqLt a b) := by unfold seqLt; infer_instance

/-! Part 8: concrete inputs used by the witnesses. -/

/-- Identity cipher used as one concrete encryption collaborator. -/
def svc0 : EncryptionService := ⟨fun s => "enc[" ++ s ++ "]", "alias/healthcare-analytics-key"⟩

/-- A concrete processor instance. -/
def proc0 : EventProcessor := ⟨svc0, "2024-01-01T00:00:01"⟩

/-- The lab result event of the spec example scenario. -/
def eventLab : HealthcareEvent :=
  { event_id := some "E1"
    event_type := .lab_result
    timestamp := "2024-01-01T00:00:00"
    provider_id := "PROV-001"
    patient_id := "PAT-12345"
    facility_id := none
    department := none
    payload := [("diagnosis_code", .str "I10"), ("visit_type", .str "routine_checkup")]
    metadata := ⟨.ehr_epic, "1.0", none, 0⟩ }

/-- The same logical event with a different payload diagnosis code. -/
def eventLab2 : HealthcareEvent :=
  { eventLab with payload := dictSet eventLab.payload "diagnosis_code" (.str "E11") }

/-- An event whose provider identifier is 51 characters long. -/
def longProviderEvent : HealthcareEvent :=
  { eventLab with provider_id := String.mk (List.replicate 51 (Char.ofNat 65)) }

/-- An event whose provider identifier is whitespace only. -/
def blankProviderEvent : HealthcareEvent :=
  { eventLab with provider_id := "   " }

/-- A second processor instance with a rotated key and a later clock. -/
def proc1 : EventProcessor := ⟨⟨fun s => s ++ "#2", "alias/rotated-key"⟩, "2024-02-02T00:00:02"⟩

/-- A concrete processed event for producer witnesses. -/
def pe0 : ProcessedEvent :=
  { event_id := some "E1"
    event_type := .lab_result
    timestamp := "2024-01-01T00:00:00"
    provider_id := "PROV-001"
    patient_id := "enc"
    facility_id := none
    department := none
    payload := []
    metadata := ⟨.ehr_epic, "1.0", none, 0⟩
    processed_at := "2024-01-01T00:00:01"
    encryption_key_id := some "alias/healthcare-analytics-key"
    checksum := some "c0"
    partition_key := some "PROV-001:lab_result" }

/-- A concrete producer with the default stream names from the settings
model. -/
def prodA : KinesisProducer := KinesisProducer.create "healthcare-events" "healthcare-events-dlq"

/-- Transport oracle that always throttles. -/
def alwaysThrottle : Nat → PutResult := fun _ => .clientError throttleCode

/-- Transport oracle whose first answer is a non retryable error. -/
def alwaysInternalError : Nat → PutResult := fun _ => .clientError "InternalFailure"

/-- Handler that fails on every record. -/
def failingHandler : KRecord → HandlerOutcome := fun _ => .err "boom"

/-- Handler that succeeds on every record. -/
def okHandler : KRecord → HandlerOutcome := fun _ => .ok


/-! Part 9: helper lemmas about the serialization model. -/

theorem unescape_cons_bs (d : Char) (rest : List Char) :
    unescape (backslashChar :: d :: rest) = unescChar d :: unescape rest := by
  simp [unescape]

theorem unescape_cons (c : Char) (rest : List Char) (h : c ≠ backslashChar) :
    unescape (c :: rest) = c :: unescape rest := by
  cases rest with
  | nil => simp [unescape, h]
  | cons d rest2 => simp [unescape, h]

theorem unescape_escape : ∀ s : List Char, unescape (escape s) = s := by
  intro s
  induction s with
  | nil => rfl
  | cons c cs ih =>
    show unescape (escChar c ++ escape cs) = c :: cs
    by_cases h1 : c = quoteChar
    · subst h1
      rw [escChar, if_pos rfl]
      show unescape (backslashChar :: quoteChar :: escape cs) = _
      rw [unescape_cons_bs, ih, show unescChar quoteChar = quoteChar by decide]
    · by_cases h2 : c = backslashChar
      · subst h2
        rw [escChar, if_neg h1, if_pos rfl]
        show unescape (backslashChar :: backslashChar :: escape cs) = _
        rw [unescape_cons_bs, ih, show unescChar backslashChar = backslashChar by decide]
      · by_cases h3 : c = Char.ofNat 10
        · subst h3
          rw [escChar, if_neg h1, if_neg h2, if_pos rfl]
          rw [List.cons_append, List.cons_append, List.nil_append, unescape_cons_bs, ih,
            show unescChar (Char.ofNat 110) = Char.ofNat 10 by decide]
        · by_cases h4 : c = Char.ofNat 9
          · subst h4
            rw [escChar, if_neg h1, if_neg h2, if_neg h3, if_pos rfl]
            rw [List.cons_append, List.cons_append, List.nil_append, unescape_cons_bs, ih,
              show unescChar (Char.ofNat 116) = Char.ofNat 9 by decide]
          · by_cases h5 : c = Char.ofNat 13
            · subst h5
              rw [escChar, if_neg h1, if_neg h2, if_neg h3, if_neg h4, if_pos rfl]
              rw [List.cons_append, List.cons_append, List.nil_append, unescape_cons_bs, ih,
                show unescChar (Char.ofNat 114) = Char.ofNat 13 by decide]
            · rw [escChar, if_neg h1, if_neg h2, if_neg h3, if_neg h4, if_neg h5]
              rw [List.cons_append, List.nil_append, unescape_cons c _ h2, ih]

theorem escape_inj {s t : List Char} (h : escape s = escape t) : s = t := by
  have := congrArg unescape h
  rwa [unescape_escape, unescape_escape] at this

theorem serString_inj {s t : String} (h : serString s = serString t) : s = t := by
  have h2 : escape s.data ++ [quoteChar] = escape t.data ++ [quoteChar] := by
    have := h
    simpa [serString] using this
  have h3 : escape s.data = escape t.data := List.append_cancel_right h2
  have h4 : s.data = t.data := escape_inj h3
  exact String.ext h4

theorem digitChar_inj_lt (a b : Nat) (ha : a < 10) (hb : b < 10)
    (h : Nat.digitChar a = Nat.digitChar b) : a = b := by
  have key : ∀ x : Fin 10, ∀ y : Fin 10, Nat.digitChar x.val = Nat.digitChar y.val → x = y := by
    decide
  have := key ⟨a, ha⟩ ⟨b, hb⟩ h
  exact congrArg Fin.val this

theorem map_digitChar_inj : ∀ (xs ys : List Nat), (∀ x ∈ xs, x < 10) → (∀ y ∈ ys, y < 10) →
    xs.map Nat.digitChar = ys.map Nat.digitChar → xs = ys := by
  intro xs
  induction xs with
  | nil =>
    intro ys _ _ h
    cases ys with
    | nil => rfl
    | cons y ys2 => simp at h
  | cons x xs2 ih =>
    intro ys hx hy h
    cases ys with
    | nil => simp at h
    | cons y ys2 =>
      simp only [List.map_cons, List.cons.injEq] at h
      have hxy : x = y :=
        digitChar_inj_lt x y (hx x (by simp)) (hy y (by simp)) h.1
      have := ih ys2 (fun a ha => hx a (by simp [ha])) (fun a ha => hy a (by simp [ha])) h.2
      rw [hxy, this]

theorem decRepr_inj {n m : Nat} (h : decRepr n = decRepr m) : n = m := by
  by_cases hn : n = 0 <;> by_cases hm : m = 0
  · rw [hn, hm]
  · exfalso
    rw [decRepr, if_pos hn, decRepr, if_neg hm] at h
    have h2 : ((Nat.digits 10 m).map Nat.digitChar) = [Char.ofNat 48] := by
      have := congrArg List.reverse h
      simpa using this.symm
    have h3 : Nat.digits 10 m = [0] := by
      cases hd : Nat.digits 10 m with
      | nil => rw [hd] at h2; simp at h2
      | cons d rest =>
        rw [hd] at h2
        cases rest with
        | nil =>
          simp only [List.map_cons, List.map_nil, List.cons.injEq] at h2
          have hdlt : d < 10 := Nat.digits_lt_base (by norm_num) (by rw [hd]; simp)
          have : d = 0 := by
            have h48 : Nat.digitChar 0 = Char.ofNat 48 := by decide
            exact digitChar_inj_lt d 0 hdlt (by norm_num) (by rw [h2.1, h48])
          rw [this]
        | cons d2 rest2 => simp at h2
    have := Nat.ofDigits_digits 10 m
    rw [h3] at this
    simp [Nat.ofDigits] at this
    exact hm this.symm
  · exfalso
    rw [decRepr, if_neg hn, decRepr, if_pos hm] at h
    have h2 : ((Nat.digits 10 n).map Nat.digitChar) = [Char.ofNat 48] := by
      have := congrArg List.reverse h
      simpa using this
    have h3 : Nat.digits 10 n = [0] := by
      cases hd : Nat.digits 10 n with
      | nil => rw [hd] at h2; simp at h2
      | cons d rest =>
        rw [hd] at h2
        cases rest with
        | nil =>
          simp only [List.map_cons, List.map_nil, List.cons.injEq] at h2
          have hdlt : d < 10 := Nat.digits_lt_base (by norm_num) (by rw [hd]; simp)
          have : d = 0 := by
            have h48 : Nat.digitChar 0 = Char.ofNat 48 := by decide
            exact digitChar_inj_lt d 0 hdlt (by norm_num) (by rw [h2.1, h48])
          rw [this]
        | cons d2 rest2 => simp at h2
    have := Nat.ofDigits_digits 10 n
    rw [h3] at this
    simp [Nat.ofDigits] at this
    exact hn this.symm
  · rw [decRepr, if_neg hn, decRepr, if_neg hm] at h
    have h2 := congrArg List.reverse h
    simp only [List.reverse_reverse] at h2
    have h3 := map_digitChar_inj _ _
      (fun x hx => Nat.digits_lt_base (by norm_num) hx)
      (fun y hy => Nat.digits_lt_base (by norm_num) hy) h2
    have h4 := Nat.ofDigits_digits 10 n
    rw [h3, Nat.ofDigits_digits 10 m] at h4
    exact h4.symm

theorem decRepr_head_digit (n : Nat) :
    ∃ c rest, decRepr n = c :: rest ∧ 47 < c.toNat ∧ c.toNat < 58 := by
  by_cases hn : n = 0
  · refine ⟨Char.ofNat 48, [], by simp [decRepr, hn], by decide, by decide⟩
  · have hne : Nat.digits 10 n ≠ [] := Nat.digits_ne_nil_iff_ne_zero.mpr hn
    have hne2 : ((Nat.digits 10 n).map Nat.digitChar).reverse ≠ [] := by
      simp [hne]
    cases hd : ((Nat.digits 10 n).map Nat.digitChar).reverse with
    | nil => exact absurd hd hne2
    | cons c rest =>
      refine ⟨c, rest, by simp [decRepr, hn, hd], ?_, ?_⟩
      · have hc : c ∈ ((Nat.digits 10 n).map Nat.digitChar).reverse := by rw [hd]; simp
        rw [List.mem_reverse, List.mem_map] at hc
        obtain ⟨d, hd2, hd3⟩ := hc
        have hdlt : d < 10 := Nat.digits_lt_base (by norm_num) hd2
        have key : ∀ x : Fin 10, 47 < (Nat.digitChar x.val).toNat := by decide
        rw [← hd3]
        exact key ⟨d, hdlt⟩
      · have hc : c ∈ ((Nat.digits 10 n).map Nat.digitChar).reverse := by rw [hd]; simp
        rw [List.mem_reverse, List.mem_map] at hc
        obtain ⟨d, hd2, hd3⟩ := hc
        have hdlt : d < 10 := Nat.digits_lt_base (by norm_num) hd2
        have key : ∀ x : Fin 10, (Nat.digitChar x.val).toNat < 58 := by decide
        rw [← hd3]
        exact key ⟨d, hdlt⟩

theorem serJsonVal_inj : ∀ v w : JsonVal, serJsonVal v = serJsonVal w → v = w := by
  intro v w h
  cases v with
  | str s =>
    cases w with
    | str t => rw [serString_inj h]
    | num m =>
      exfalso
      obtain ⟨c, rest, hc, h1, h2⟩ := decRepr_head_digit m
      rw [serJsonVal, serJsonVal, serString, hc] at h
      have := (List.cons.injEq _ _ _ _).mp h
      have hq : quoteChar.toNat = 34 := by decide
      rw [this.1] at hq
      omega
    | null =>
      exfalso
      rw [serJsonVal, serJsonVal, serString,
        show ("null".data : List Char) = Char.ofNat 110 :: "ull".data from by decide] at h
      have := (List.cons.injEq _ _ _ _).mp h
      exact absurd this.1 (by decide)
  | num n =>
    cases w with
    | str t =>
      exfalso
      obtain ⟨c, rest, hc, h1, h2⟩ := decRepr_head_digit n
      rw [serJsonVal, serJsonVal, serString, hc] at h
      have := (List.cons.injEq _ _ _ _).mp h
      have hq : quoteChar.toNat = 34 := by decide
      rw [← this.1] at hq
      omega
    | num m => rw [decRepr_inj h]
    | null =>
      exfalso
      obtain ⟨c, rest, hc, h1, h2⟩ := decRepr_head_digit n
      rw [serJsonVal, serJsonVal, hc] at h
      have hnull : ("null".data : List Char) = Char.ofNat 110 :: "ull".data := by decide
      rw [hnull] at h
      have := (List.cons.injEq _ _ _ _).mp h
      have hn2 : (Char.ofNat 110).toNat = 110 := by decide
      rw [this.1] at h1 h2
      rw [hn2] at h1 h2
      omega
  | null =>
    cases w with
    | str t =>
      exfalso
      rw [serJsonVal, serJsonVal, serString,
        show ("null".data : List Char) = Char.ofNat 110 :: "ull".data from by decide] at h
      have := (List.cons.injEq _ _ _ _).mp h
      exact absurd this.1 (by decide)
    | num m =>
      exfalso
      obtain ⟨c, rest, hc, h1, h2⟩ := decRepr_head_digit m
      rw [serJsonVal, serJsonVal, hc] at h
      have hnull : ("null".data : List Char) = Char.ofNat 110 :: "ull".data := by decide
      rw [hnull] at h
      have := (List.cons.injEq _ _ _ _).mp h
      have hn2 : (Char.ofNat 110).toNat = 110 := by decide
      rw [← this.1] at h1 h2
      rw [hn2] at h1 h2
      omega
    | null => rfl

theorem serEntry_inj_val {k : String} {v w : JsonVal} (h : serEntry (k, v) = serEntry (k, w)) :
    v = w := by
  have h2 : colonChar :: serJsonVal v = colonChar :: serJsonVal w :=
    List.append_cancel_left h
  exact serJsonVal_inj v w (List.cons.inj h2).2

theorem dictSet_ne_nil {α : Type} (d : List (String × α)) (k : String) (v : α) :
    dictSet d k v ≠ [] := by
  cases d with
  | nil => simp [dictSet]
  | cons kv rest =>
    obtain ⟨k0, v0⟩ := kv
    rw [dictSet]
    by_cases h : k0 = k
    · simp [h]
    · simp [h]

theorem joinEntries_cons2 (kv : String × JsonVal) (l : List (String × JsonVal)) (h : l ≠ []) :
    joinEntries (kv :: l) = serEntry kv ++ commaChar :: joinEntries l := by
  cases l with
  | nil => exact absurd rfl h
  | cons kv2 rest => rfl

theorem joinEntries_dictSet_ne {k : String} {v w : JsonVal} (hne : w ≠ v) :
    ∀ p : List (String × JsonVal), dictGet p k = some v →
      joinEntries (dictSet p k w) ≠ joinEntries p := by
  intro p
  induction p with
  | nil => intro hget; rw [dictGet] at hget; cases hget
  | cons kv rest ih =>
    intro hget heq
    obtain ⟨k0, v0⟩ := kv
    by_cases hk : k0 = k
    · rw [dictGet, if_pos hk] at hget
      have hv0 : v0 = v := Option.some.inj hget
      rw [dictSet, if_pos hk] at heq
      cases rest with
      | nil =>
        rw [joinEntries, joinEntries] at heq
        subst hk hv0
        exact hne (serEntry_inj_val heq)
      | cons kv2 rest2 =>
        have e1 : joinEntries ((k, w) :: kv2 :: rest2)
            = serEntry (k, w) ++ commaChar :: joinEntries (kv2 :: rest2) := rfl
        have e2 : joinEntries ((k0, v0) :: kv2 :: rest2)
            = serEntry (k0, v0) ++ commaChar :: joinEntries (kv2 :: rest2) := rfl
        rw [e1, e2] at heq
        have h3 := List.append_cancel_right heq
        subst hk hv0
        exact hne (serEntry_inj_val h3)
    · rw [dictGet, if_neg hk] at hget
      rw [dictSet, if_neg hk] at heq
      have hrest : rest ≠ [] := by
        intro hr
        rw [hr, dictGet] at hget
        cases hget
      have e1 := joinEntries_cons2 (k0, v0) (dictSet rest k w) (dictSet_ne_nil rest k w)
      have e2 := joinEntries_cons2 (k0, v0) rest hrest
      rw [e1, e2] at heq
      have h3 := List.append_cancel_left heq
      exact ih hget (List.cons.inj h3).2

theorem serPayload_dictSet_ne {k : String} {v w : JsonVal} {p : List (String × JsonVal)}
    (hget : dictGet p k = some v) (hne : w ≠ v) :
    serPayload (dictSet p k w) ≠ serPayload p := by
  intro heq
  rw [serPayload, serPayload] at heq
  have h2 := (List.cons.inj heq).2
  exact joinEntries_dictSet_ne hne p hget (List.append_cancel_right h2)

theorem modelDumpJson_setPayload_ne {e : HealthcareEvent} {k : String} {v w : JsonVal}
    (hget : dictGet e.payload k = some v) (hne : w ≠ v) :
    modelDumpJson (setPayloadField e k w) ≠ modelDumpJson e := by
  intro heq
  have hhead : mdjHead (setPayloadField e k w) = mdjHead e := rfl
  have htail : mdjTail (setPayloadField e k w).metadata = mdjTail e.metadata := rfl
  rw [modelDumpJson, modelDumpJson, hhead, htail] at heq
  have h2 := List.append_cancel_right heq
  have h3 := List.append_cancel_left h2
  exact serPayload_dictSet_ne hget hne h3

/-! Part 10: helper lemmas about the dict model, the redaction loop, the
consumer and the producer. -/

theorem dictGet_dictSet_ne {α : Type} (k0 k : String) (v : α) (h : k0 ≠ k) :
    ∀ d : List (String × α), dictGet (dictSet d k0 v) k = dictGet d k := by
  intro d
  induction d with
  | nil => simp [dictSet, dictGet, h]
  | cons kv rest ih =>
    obtain ⟨k1, v1⟩ := kv
    by_cases h1 : k1 = k0
    · subst h1
      simp [dictSet, dictGet, h]
    · by_cases h2 : k1 = k
      · have hkk0 : ¬ k = k0 := fun hh => h hh.symm
        subst h2
        simp [dictSet, dictGet, h1, hkk0]
      · simp [dictSet, dictGet, h1, h2, ih]

theorem encryptPayloadLoop_orig (svc : EncryptionService) :
    ∀ (fs : List String) (orig copied : List (String × JsonVal)) (calls : List String),
      (encryptPayloadLoop svc fs orig copied calls).orig = orig := by
  intro fs
  induction fs with
  | nil => intro o c cs; rfl
  | cons f fs2 ih =>
    intro o c cs
    cases h : dictGet c f with
    | some v => simp only [encryptPayloadLoop, h]; exact ih o _ _
    | none => simp only [encryptPayloadLoop, h]; exact ih o c cs

theorem encryptPayloadLoop_get_notin (svc : EncryptionService) (k : String) :
    ∀ (fs : List String) (orig copied : List (String × JsonVal)) (calls : List String),
      k ∉ fs →
      dictGet (encryptPayloadLoop svc fs orig copied calls).copied k = dictGet copied k := by
  intro fs
  induction fs with
  | nil => intro o c cs _; rfl
  | cons f fs2 ih =>
    intro o c cs hk
    have hkf : f ≠ k := fun h => hk (h ▸ List.mem_cons_self f fs2)
    have hk2 : k ∉ fs2 := fun h => hk (List.mem_cons_of_mem f h)
    cases h : dictGet c f with
    | some v =>
      simp only [encryptPayloadLoop, h]
      rw [ih o _ _ hk2, dictGet_dictSet_ne f k _ hkf]
    | none =>
      simp only [encryptPayloadLoop, h]
      exact ih o c cs hk2

theorem processRecords_eq (handler : KRecord → HandlerOutcome) (shard : String) :
    ∀ (records : List KRecord) (table : List (String × String)),
      KinesisConsumer.processRecords handler shard records table =
        ⟨(records.filter fun r => (handler r).isOk).foldl
            (fun t r => dictSet t shard r.seq) table,
         (records.filter fun r => !(handler r).isOk).map (fun r => r.seq),
         records.map (fun r => r.seq),
         (records.filter fun r => (handler r).isOk).map (fun r => r.seq)⟩ := by
  intro records
  induction records with
  | nil => intro table; rfl
  | cons r rest ih =>
    intro table
    cases hh : handler r with
    | ok =>
      simp only [KinesisConsumer.processRecords, hh, ih, List.filter_cons, List.map_cons,
        HandlerOutcome.isOk, Bool.not_true, if_pos, List.foldl_cons]
      simp
    | err m =>
      simp only [KinesisConsumer.processRecords, hh, ih, List.filter_cons, List.map_cons,
        HandlerOutcome.isOk, Bool.not_false, List.foldl_cons]
      simp

theorem sendAttempts_dlq_nil (p : KinesisProducer) (d : List Char) (pk : String)
    (oracle : Nat → PutResult) (hne : p.streamName ≠ p.dlqStreamName) :
    ∀ (fuel attempt : Nat),
      dlqWrites p (sendAttempts p d pk oracle attempt fuel).1 = [] := by
  intro fuel
  induction fuel with
  | zero => intro a; rfl
  | succ n ih =>
    intro a
    cases h : oracle a with
    | ok s q =>
      simp [sendAttempts, h, dlqWrites, List.filter, hne]
    | clientError c =>
      by_cases hc : c = throttleCode
      · subst hc
        have := ih (a + 1)
        have hb : (p.streamName == p.dlqStreamName) = false := beq_eq_false_iff_ne.mpr hne
        simp only [sendAttempts, h, if_pos rfl]
        simp only [dlqWrites, List.filter] at this ⊢
        simp [hb, this]
      · simp [sendAttempts, h, hc, dlqWrites, List.filter, hne]

theorem handleFailedRecords_nil_of_countP (p : KinesisProducer)
    (events : List ProcessedEvent) (results : List (Option String))
    (h : results.countP Option.isSome = 0) :
    handleFailedRecords p events results = [] := by
  rw [List.countP_eq_zero] at h
  rw [handleFailedRecords, List.filterMap_eq_nil_iff]
  intro er her
  have hmem := (List.of_mem_zip her).2
  have := h er.2 hmem
  cases hr : er.2 with
  | none => simp
  | some c => rw [hr] at this; simp at this

theorem handleFailedRecords_length (p : KinesisProducer) :
    ∀ (events : List ProcessedEvent) (results : List (Option String)),
      results.length = events.length →
      (handleFailedRecords p events results).length = results.countP Option.isSome := by
  intro events
  induction events with
  | nil =>
    intro results h
    cases results with
    | nil => rfl
    | cons r rs => simp at h
  | cons e es ih =>
    intro results h
    cases results with
    | nil => simp at h
    | cons r rs =>
      have hlen : rs.length = es.length := by simpa using h
      cases r with
      | some c =>
        simp only [handleFailedRecords, List.zip_cons_cons, List.filterMap_cons] at *
        simp [List.countP_cons, ← ih rs hlen, handleFailedRecords]
      | none =>
        simp only [handleFailedRecords, List.zip_cons_cons, List.filterMap_cons] at *
        simp [List.countP_cons, ← ih rs hlen, handleFailedRecords]

/-! Part 11: the claims. -/

/-- Claim C6: for every valid raw event, the partition key of the produced
record equals provider_id, a colon, and the event type value; it is a pure
function of the provider and type pair, and the spec example gives
PROV-001:lab_result. -/
theorem claim_C6_partition_key (proc : EventProcessor) (e e2 : HealthcareEvent)
    (hp : e2.provider_id = e.provider_id) (ht : e2.event_type = e.event_type) :
    (EventProcessor.process proc e).record.partition_key
        = some (e.provider_id ++ ":" ++ e.event_type.value)
      ∧ generatePartitionKey e2 = generatePartitionKey e
      ∧ generatePartitionKey eventLab = "PROV-001:lab_result" := by
  refine ⟨rfl, ?_, by decide⟩
  rw [generatePartitionKey, generatePartitionKey, hp, ht]

/-- Witness for claim C6 at the concrete spec example event. -/
theorem claim_C6_witness :
    (EventProcessor.process proc0 eventLab).record.partition_key
        = some (eventLab.provider_id ++ ":" ++ eventLab.event_type.value)
      ∧ generatePartitionKey eventLab = generatePartitionKey eventLab
      ∧ generatePartitionKey eventLab = "PROV-001:lab_result" :=
  claim_C6_partition_key proc0 eventLab eventLab rfl rfl

/-- Claim C10: processing never mutates its input: the input event object
is unchanged after process (the redacted payload is a fresh copy), and
every payload key outside the sensitive allow list maps in the output
record to exactly the original value from the input payload. -/
theorem claim_C10_no_input_mutation (proc : EventProcessor) (e : HealthcareEvent) (k : String)
    (hk : k ∉ sensitiveFields) :
    (EventProcessor.process proc e).inputAfter = e
      ∧ dictGet (EventProcessor.process proc e).record.payload k = dictGet e.payload k := by
  constructor
  · show ({ e with payload := (encryptPayload proc.encryptionService e.payload).orig }
        : HealthcareEvent) = e
    rw [encryptPayload, encryptPayloadLoop_orig]
  · show dictGet (encryptPayload proc.encryptionService e.payload).copied k
        = dictGet e.payload k
    exact encryptPayloadLoop_get_notin proc.encryptionService k sensitiveFields
      e.payload e.payload [] hk

/-- Witness for claim C10 at a concrete event and the non sensitive key
visit_type. -/
theorem claim_C10_witness :
    (EventProcessor.process proc0 eventLab).inputAfter = eventLab
      ∧ dictGet (EventProcessor.process proc0 eventLab).record.payload "visit_type"
          = dictGet eventLab.payload "visit_type" :=
  claim_C10_no_input_mutation proc0 eventLab "visit_type" (by decide)

/-- Claim C2 counterexample: a handler error on a record does not advance
the checkpoint of that record.  With checkpoint 1 stored for the shard, a batch
with the single record at sequence 5 whose handler raises leaves the
checkpoint at 1 instead of advancing it to 5, while the error is logged. -/
theorem claim_C2_counterexample :
    (KinesisConsumer.processRecords failingHandler "shard-1"
        [⟨"x".data, "5"⟩] [("shard-1", "1")]).errors = ["5"]
      ∧ dictGet (KinesisConsumer.processRecords failingHandler "shard-1"
          [⟨"x".data, "5"⟩] [("shard-1", "1")]).table "shard-1" = some "1"
      ∧ dictGet (KinesisConsumer.processRecords failingHandler "shard-1"
          [⟨"x".data, "5"⟩] [("shard-1", "1")]).table "shard-1" ≠ some "5" := by
  decide

/-- Claim C2 as amended: for every batch, a handler error on one record is
logged and every record of the batch, including those after the failure,
still has its handler invoked; records whose handler succeeds are
checkpointed; the failing record itself is not checkpointed (its
checkpoint write is skipped, so the checkpoint stays at the last
successful record). -/
theorem claim_C2_poison_record (handler : KRecord → HandlerOutcome) (shard : String)
    (records : List KRecord) (table : List (String × String)) :
    (KinesisConsumer.processRecords handler shard records table).handled
        = records.map (fun r => r.seq)
      ∧ (KinesisConsumer.processRecords handler shard records table).errors
          = (records.filter fun r => !(handler r).isOk).map (fun r => r.seq)
      ∧ (KinesisConsumer.processRecords handler shard records table).writes
          = (records.filter fun r => (handler r).isOk).map (fun r => r.seq)
      ∧ (KinesisConsumer.processRecords handler shard records table).table
          = (records.filter fun r => (handler r).isOk).foldl
              (fun t r => dictSet t shard r.seq) table := by
  rw [processRecords_eq]
  exact ⟨rfl, rfl, rfl, rfl⟩

/-- Claim C7 counterexample: a stored checkpoint that is the empty string
exists in the table, yet the consumer requests LATEST for that shard
because the Python truthiness test conflates an empty checkpoint with a
missing one. -/
theorem claim_C7_counterexample :
    dictGet [("shard-0", "")] "shard-0" = some ""
      ∧ KinesisConsumer.getShardIteratorMode [("shard-0", "")] "shard-0" = IterMode.latest := by
  decide

/-- Claim C7 as amended: when acquiring a position (both at loop start and
after an expired iterator failure, which reacquires through the same
logic), the consumer requests a position after the stored checkpoint
whenever a non empty checkpoint exists for the shard, and requests the
newest record position when no checkpoint exists (or when the stored
checkpoint is the empty string, which the code treats as missing). -/
theorem claim_C7_checkpoint_resume (handler : KRecord → HandlerOutcome)
    (getIter : IterMode → String) (table : List (String × String))
    (shard iterator : String) :
    (∀ cp, dictGet table shard = some cp → cp ≠ "" →
        KinesisConsumer.getShardIteratorMode table shard = .afterSequenceNumber cp)
      ∧ (dictGet table shard = none →
          KinesisConsumer.getShardIteratorMode table shard = .latest)
      ∧ (KinesisConsumer.consumeShardStep handler getIter table shard iterator
            .expiredIterator).nextIterator
          = some (getIter (KinesisConsumer.getShardIteratorMode table shard)) := by
  refine ⟨?_, ?_, rfl⟩
  · intro cp h hne
    rw [KinesisConsumer.getShardIteratorMode, h]
    simp [hne]
  · intro h
    rw [KinesisConsumer.getShardIteratorMode, h]

/-- Witness for claim C7: a shard with checkpoint 49 resumes after 49, a
shard with no checkpoint starts at LATEST, and the expired iterator path
reacquires from the mode function. -/
theorem claim_C7_witness :
    KinesisConsumer.getShardIteratorMode [("shard-0", "49")] "shard-0"
        = IterMode.afterSequenceNumber "49"
      ∧ KinesisConsumer.getShardIteratorMode [] "shard-0" = IterMode.latest
      ∧ (KinesisConsumer.consumeShardStep okHandler (fun _ => "it") [("shard-0", "49")]
            "shard-0" "old" .expiredIterator).nextIterator
          = some ((fun _ => "it") (KinesisConsumer.getShardIteratorMode
              [("shard-0", "49")] "shard-0")) :=
  ⟨(claim_C7_checkpoint_resume okHandler (fun _ => "it") [("shard-0", "49")] "shard-0"
      "old").1 "49" (by decide) (by decide),
   (claim_C7_checkpoint_resume okHandler (fun _ => "it") [] "shard-0" "old").2.1 (by decide),
   (claim_C7_checkpoint_resume okHandler (fun _ => "it") [("shard-0", "49")] "shard-0"
      "old").2.2⟩

/-- Claim C8 counterexample: the checkpoint write is an unconditional last
writer wins assignment with no monotonicity guard.  With checkpoint 5
stored for the shard, successfully processing a record with the smaller
sequence marker 3 overwrites the checkpoint back to 3. -/
theorem claim_C8_counterexample :
    (KinesisConsumer.processRecords okHandler "s" [⟨[], "3"⟩] [("s", "5")]).table = [("s", "3")]
      ∧ seqLt "3" "5" := by
  decide

/-- Claim C8 as amended: the stored checkpoint is monotonic over the
records of a batch provided the records arrive in non decreasing sequence
order and at or above the current checkpoint, which is what the stream
contract provides within one shard lineage; under those hypotheses the
chain of checkpoint values written never decreases.  The code applies a
backward update rather than rejecting it, so monotonicity holds only
under those delivery hypotheses. -/
theorem claim_C8_checkpoint_monotone (handler : KRecord → HandlerOutcome)
    (shard : String) (records : List KRecord) (table : List (String × String)) (cp : String)
    (hcp : dictGet table shard = some cp)
    (hsorted : List.Pairwise (fun a b => seqLe a.seq b.seq) records)
    (hlb : ∀ r ∈ records, seqLe cp r.seq) :
    List.Pairwise seqLe
      (cp :: (KinesisConsumer.processRecords handler shard records table).writes) := by
  rw [processRecords_eq]
  constructor
  · intro x hx
    rw [List.mem_map] at hx
    obtain ⟨r, hr, hx⟩ := hx
    exact hx ▸ hlb r (List.mem_of_mem_filter hr)
  · have h2 := List.Pairwise.filter (l := records) (fun r => (handler r).isOk) hsorted
    exact List.Pairwise.map (fun r : KRecord => r.seq) (fun a b h => h) h2

/-- Witness for claim C8: a sorted batch at or above the stored checkpoint
keeps the checkpoint chain non decreasing. -/
theorem claim_C8_witness :
    List.Pairwise seqLe
      ("5" :: (KinesisConsumer.processRecords okHandler "s"
          [⟨[], "7"⟩, ⟨[], "9"⟩] [("s", "5")]).writes) :=
  claim_C8_checkpoint_monotone okHandler "s" [⟨[], "7"⟩, ⟨[], "9"⟩] [("s", "5")] "5"
    (by decide) (by decide) (by decide)

/-- Auxiliary: a string of length zero is the empty string. -/
theorem string_length_zero (s : String) (h : s.length = 0) : s = "" := by
  cases s with
  | mk data =>
    cases data with
    | nil => rfl
    | cons c cs => exact absurd h (by simp [String.length])

/-- Auxiliary: pydantic validation succeeds exactly when both identifiers
are non empty after stripping and within their maximum lengths. -/
theorem validates_iff (e : HealthcareEvent) :
    e.validates = true ↔ (pyStrip e.provider_id ≠ "" ∧ e.provider_id.length ≤ 50
      ∧ pyStrip e.patient_id ≠ "" ∧ e.patient_id.length ≤ 100) := by
  constructor
  · intro h
    rw [HealthcareEvent.validates, HealthcareEvent.validate] at h
    split_ifs at h with h1 h2 h3 h4 h5 h6
    exact ⟨h3, by omega, h6, by omega⟩
  · rintro ⟨a, b, c, d⟩
    have l1 : ¬ e.provider_id.length < 1 := by
      intro hl
      have he : e.provider_id = "" := string_length_zero _ (by omega)
      rw [he] at a
      exact a rfl
    have l4 : ¬ e.patient_id.length < 1 := by
      intro hl
      have he : e.patient_id = "" := string_length_zero _ (by omega)
      rw [he] at c
      exact c rfl
    rw [HealthcareEvent.validates, HealthcareEvent.validate, if_neg l1,
      if_neg (by omega : ¬ 50 < e.provider_id.length), if_neg a, if_neg l4,
      if_neg (by omega : ¬ 100 < e.patient_id.length), if_neg c]

/-- Claim C9 counterexample: an event whose provider identifier is 51
characters long is non empty after trimming yet fails validation, because
the schema also enforces max_length 50 on the provider identifier (and 100
on the patient identifier). -/
theorem claim_C9_counterexample :
    pyStrip longProviderEvent.provider_id ≠ ""
      ∧ longProviderEvent.validates = false := by
  decide

/-- Claim C9 as amended: an event whose provider or patient identifier is
empty or whitespace only after trimming fails validation, and the
rejection happens before any encryption or redaction call is made (the
trace of encrypt_phi calls of the ingestion is empty); events whose
identifiers are non empty after trimming pass validation provided they
also respect the schema maximum lengths, 50 for the provider identifier
and 100 for the patient identifier. -/
theorem claim_C9_validation (proc : EventProcessor) (e : HealthcareEvent) :
    ((pyStrip e.provider_id = "" ∨ pyStrip e.patient_id = "")
        → e.validates = false ∧ (ingest proc e).encCalls = [])
      ∧ (pyStrip e.provider_id ≠ "" → pyStrip e.patient_id ≠ ""
        → e.provider_id.length ≤ 50 → e.patient_id.length ≤ 100
        → e.validates = true) := by
  constructor
  · intro hor
    have hval : e.validates = false := by
      cases hv : e.validates with
      | false => rfl
      | true =>
        obtain ⟨a, _, c, _⟩ := (validates_iff e).mp hv
        rcases hor with h | h
        · exact absurd h a
        · exact absurd h c
    refine ⟨hval, ?_⟩
    rw [HealthcareEvent.validates] at hval
    cases hv2 : e.validate with
    | ok v => rw [hv2] at hval; simp at hval
    | error m => simp [ingest, hv2]
  · intro a c b d
    exact (validates_iff e).mpr ⟨a, b, c, d⟩

/-- Witness for claim C9: a whitespace only provider identifier is
rejected with no encryption calls, and the spec example event passes
validation. -/
theorem claim_C9_witness :
    (blankProviderEvent.validates = false
        ∧ (ingest proc0 blankProviderEvent).encCalls = [])
      ∧ eventLab.validates = true :=
  ⟨(claim_C9_validation proc0 blankProviderEvent).1 (Or.inl (by decide)),
   (claim_C9_validation proc0 eventLab).2 (by decide) (by decide) (by decide) (by decide)⟩

/-- Claim C1: the integrity checksum of the produced stream record is the
SHA-256 hex digest of the canonical serialization of the original, pre
redaction event (not of the redacted record); the checksum does not depend
on the processor state, so processing the identical logical event twice,
even across key rotation, yields identical checksums; and changing any
payload field changes the serialization fed to the digest and therefore,
whenever SHA-256 does not collide on the two distinct serializations, the
checksum. -/
theorem claim_C1_checksum (proc proc2 : EventProcessor) (e : HealthcareEvent)
    (k : String) (v w : JsonVal)
    (hget : dictGet e.payload k = some v) (hvw : w ≠ v)
    (hcoll : sha256hex (charBytes (modelDumpJson (setPayloadField e k w)))
          = sha256hex (charBytes (modelDumpJson e))
        → modelDumpJson (setPayloadField e k w) = modelDumpJson e) :
    (EventProcessor.process proc e).record.checksum
        = some (sha256hex (charBytes (modelDumpJson e)))
      ∧ (EventProcessor.process proc2 e).record.checksum
          = (EventProcessor.process proc e).record.checksum
      ∧ modelDumpJson (setPayloadField e k w) ≠ modelDumpJson e
      ∧ generateChecksum (setPayloadField e k w) ≠ generateChecksum e := by
  refine ⟨rfl, rfl, modelDumpJson_setPayload_ne hget hvw, ?_⟩
  intro hchk
  exact modelDumpJson_setPayload_ne hget hvw (hcoll hchk)

set_option maxRecDepth 1000000 in
set_option maxHeartbeats 4000000 in
/-- Witness for claim C1 at the spec example: the lab result event with
diagnosis code I10 against the same event with diagnosis code E11; the
digests are computed concretely and differ. -/
theorem claim_C1_witness :
    (EventProcessor.process proc0 eventLab).record.checksum
        = some (sha256hex (charBytes (modelDumpJson eventLab)))
      ∧ (EventProcessor.process proc1 eventLab).record.checksum
          = (EventProcessor.process proc0 eventLab).record.checksum
      ∧ modelDumpJson (setPayloadField eventLab "diagnosis_code" (JsonVal.str "E11"))
          ≠ modelDumpJson eventLab
      ∧ generateChecksum (setPayloadField eventLab "diagnosis_code" (JsonVal.str "E11"))
          ≠ generateChecksum eventLab :=
  claim_C1_checksum proc0 proc1 eventLab "diagnosis_code" (JsonVal.str "I10")
    (JsonVal.str "E11") (by decide) (by decide) (by decide)

/-- Claim C3: with the constructor configuration (max_retries 3, base
delay one tenth of a second), a transport that throttles every attempt
produces exactly three put_record attempts on the primary stream, a sleep
of baseDelay times 2 to the attempt after each failed attempt, and then
exactly one dead letter write; a non retryable failure on the first
attempt stops retrying immediately and dead letters with no further
publish attempt and no sleep. -/
theorem claim_C3_retry_backoff (stream dlq : String) (e : ProcessedEvent)
    (othr onr : Nat → PutResult) (code : String)
    (hthr : ∀ i, othr i = .clientError throttleCode)
    (hnr : onr 0 = .clientError code) (hcode : code ≠ throttleCode) :
    (KinesisProducer.create stream dlq).sendEvent e othr
        = ([.putRecord stream (putData e) (partitionKeyOf e),
            .sleepFor ((1 : ℚ)/10 * 2 ^ 0),
            .putRecord stream (putData e) (partitionKeyOf e),
            .sleepFor ((1 : ℚ)/10 * 2 ^ 1),
            .putRecord stream (putData e) (partitionKeyOf e),
            .sleepFor ((1 : ℚ)/10 * 2 ^ 2),
            .putRecord dlq (putData e) (partitionKeyOf e)], false)
      ∧ (KinesisProducer.create stream dlq).sendEvent e onr
          = ([.putRecord stream (putData e) (partitionKeyOf e),
              .putRecord dlq (putData e) (partitionKeyOf e)], false) := by
  constructor
  · show KinesisProducer.sendEvent ⟨stream, dlq, 3, 1/10⟩ e othr = _
    rw [KinesisProducer.sendEvent]
    simp only [sendAttempts, hthr 0, hthr 1, hthr 2, if_pos rfl, sendToDlq]
    norm_num
  · show KinesisProducer.sendEvent ⟨stream, dlq, 3, 1/10⟩ e onr = _
    rw [KinesisProducer.sendEvent]
    simp only [sendAttempts, hnr, if_neg hcode, sendToDlq]
    norm_num

/-- Witness for claim C3 with concrete oracles. -/
theorem claim_C3_witness :
    prodA.sendEvent pe0 alwaysThrottle
        = ([.putRecord "healthcare-events" (putData pe0) (partitionKeyOf pe0),
            .sleepFor ((1 : ℚ)/10 * 2 ^ 0),
            .putRecord "healthcare-events" (putData pe0) (partitionKeyOf pe0),
            .sleepFor ((1 : ℚ)/10 * 2 ^ 1),
            .putRecord "healthcare-events" (putData pe0) (partitionKeyOf pe0),
            .sleepFor ((1 : ℚ)/10 * 2 ^ 2),
            .putRecord "healthcare-events-dlq" (putData pe0) (partitionKeyOf pe0)], false)
      ∧ prodA.sendEvent pe0 alwaysInternalError
          = ([.putRecord "healthcare-events" (putData pe0) (partitionKeyOf pe0),
              .putRecord "healthcare-events-dlq" (putData pe0) (partitionKeyOf pe0)], false) :=
  claim_C3_retry_backoff "healthcare-events" "healthcare-events-dlq" pe0
    alwaysThrottle alwaysInternalError "InternalFailure"
    (fun _ => rfl) rfl (by decide)

/-- Claim C4: for every producer with distinct primary and dead letter
stream names and every single record publish, the trace contains a dead
letter write exactly when the record did not reach the primary stream (the
call returns false), and that write is unique and carries the identical
data bytes and the same partition key as the primary puts, on the dead
letter stream. -/
theorem claim_C4_dlq_iff (p : KinesisProducer) (e : ProcessedEvent)
    (oracle : Nat → PutResult) (hne : p.streamName ≠ p.dlqStreamName) :
    dlqWrites p (p.sendEvent e oracle).1
      = if (p.sendEvent e oracle).2 then []
        else [.putRecord p.dlqStreamName (putData e) (partitionKeyOf e)] := by
  rw [KinesisProducer.sendEvent]
  have hnil := sendAttempts_dlq_nil p (putData e) (partitionKeyOf e) oracle hne
    p.maxRetries 0
  have hb : (p.dlqStreamName == p.dlqStreamName) = true := beq_self_eq_true _
  by_cases h2 : (sendAttempts p (putData e) (partitionKeyOf e) oracle 0 p.maxRetries).2
  · simp only [h2, if_pos, if_true]
    exact hnil
  · simp only [h2, if_false, Bool.false_eq_true, if_neg]
    simp only [dlqWrites, List.filter_append] at hnil ⊢
    rw [hnil]
    simp [sendToDlq, hb]

/-- Witness for claim C4 at a concrete producer and oracle. -/
theorem claim_C4_witness :
    dlqWrites prodA (prodA.sendEvent pe0 alwaysThrottle).1
      = if (prodA.sendEvent pe0 alwaysThrottle).2 then []
        else [.putRecord prodA.dlqStreamName (putData pe0) (partitionKeyOf pe0)] :=
  claim_C4_dlq_iff prodA pe0 alwaysThrottle (by decide)

/-- Claim C5: a batch publish of n records makes exactly one batch call;
when the transport response reports k records as individually failed,
exactly those records whose per record result carries an error code are
routed to the dead letter stream, there are k of them, and the returned
summary is total n, succeeded n minus k, failed k; when the whole batch
call fails, every record is dead lettered and the summary reports zero
succeeded; no retry happens at the batch level. -/
theorem claim_C5_batch (p : KinesisProducer) (events : List ProcessedEvent)
    (fc : Nat) (results : List (Option String)) (code : String)
    (hlen : results.length = events.length)
    (hfc : fc = results.countP Option.isSome) :
    (p.sendBatch events (.ok fc results)).2
        = ⟨events.length, events.length - fc, fc⟩
      ∧ (p.sendBatch events (.ok fc results)).1
          = .putRecordsCall p.streamName (events.map fun e => (putData e, partitionKeyOf e))
            :: handleFailedRecords p events results
      ∧ (handleFailedRecords p events results).length = fc
      ∧ (p.sendBatch events (.clientError code)).2
          = ⟨events.length, 0, events.length⟩
      ∧ (p.sendBatch events (.clientError code)).1
          = .putRecordsCall p.streamName (events.map fun e => (putData e, partitionKeyOf e))
            :: events.map (fun e => .putRecord p.dlqStreamName (putData e) (partitionKeyOf e)) := by
  refine ⟨rfl, ?_, ?_, rfl, rfl⟩
  · rw [KinesisProducer.sendBatch]
    by_cases hpos : 0 < fc
    · rw [if_pos hpos]
    · rw [if_neg hpos]
      have hfc0 : results.countP Option.isSome = 0 := by omega
      rw [handleFailedRecords_nil_of_countP p events results hfc0]
  · rw [handleFailedRecords_length p events results hlen, hfc]

/-- Witness for claim C5 with one failed record out of two. -/
theorem claim_C5_witness :
    (prodA.sendBatch [pe0, pe0] (.ok 1 [none, some "Throttled"])).2
        = ⟨2, 1, 1⟩
      ∧ (prodA.sendBatch [pe0, pe0] (.ok 1 [none, some "Throttled"])).1
          = .putRecordsCall prodA.streamName
              ([pe0, pe0].map fun e => (putData e, partitionKeyOf e))
            :: handleFailedRecords prodA [pe0, pe0] [none, some "Throttled"]
      ∧ (handleFailedRecords prodA [pe0, pe0] [none, some "Throttled"]).length = 1
      ∧ (prodA.sendBatch [pe0, pe0] (.clientError "AccessDenied")).2 = ⟨2, 0, 2⟩
      ∧ (prodA.sendBatch [pe0, pe0] (.clientError "AccessDenied")).1
          = .putRecordsCall prodA.streamName
              ([pe0, pe0].map fun e => (putData e, partitionKeyOf e))
            :: [pe0, pe0].map
                (fun e => .putRecord prodA.dlqStreamName (putData e) (partitionKeyOf e)) :=
  claim_C5_batch prodA [pe0, pe0] 1 [none, some "Throttled"] "AccessDenied" rfl rfl
